import Mathlib

/-!
Verification of the duck_scraper repository (src/scrape.py) against its
natural-language specification.

The pure core of `scrape.py` is embedded shallowly:

* the persisted log (`LogState`, `load_log_file`, `save_checkpoint`),
* the message classifier inlined in `get_qualified_messages` (lines 315-387),
* the resume-point computation and incremental scan (lines 288-320),
* the download orchestrator of `download_reacted_media` (lines 555-616)
  together with `download_media_with_retry` (lines 471-492),
* the progress tracker (lines 441-458).

Network effects are modelled by explicit inputs: the channel's message
stream is a list of `RawMessage` given in the order `iter_messages`
yields it, media-fetch outcomes come from an oracle function, and the
filesystem is an explicit list of paths (or of path/size pairs for the
verifier).  The post-download verifier `verify_downloads` is invoked at
scrape.py line 525 but its definition does not appear anywhere under
src/; it is modelled from the spec (section 4.5) below and marked as such.
-/

/-- Kind of media attached to a raw message.  `scrape.py` only treats
`MessageMediaPhoto` (line 322); everything else is ignored. -/
inductive MediaKind
  | photo
  | other
deriving DecidableEq

/-- One entry of `message.reactions.results` (scrape.py lines 353-359):
an emoticon and its count. -/
structure RawReaction where
  emoji : String
  count : Nat
deriving DecidableEq

/-- The sender of the message a scanned message replies to
(scrape.py lines 333-341).  `username`, `firstName` and `lastName` are
optional exactly as the `getattr(..., None)` / `or ''` probes are. -/
structure ReplySender where
  senderId : Int
  username : Option String
  firstName : Option String
  lastName : Option String
deriving DecidableEq

/-- The message a scanned message replies to, as far as
`get_reply_message` exposes it (scrape.py lines 329-341):
its text and, when present, its sender. -/
structure ReplyInfo where
  text : Option String
  sender : Option ReplySender
deriving DecidableEq

/-- A raw remote message as the scanner reads it.  `dateCompact` and
`dateIso` stand for `message.date.strftime("%y%m%d_%H%M")` and
`message.date.isoformat()` (lines 348 and 373), which are computed
upstream of all logic modelled here.  `reactionsField = none` models a
falsy `message.reactions` (attribute absent or `None`); `some rs`
models a reactions object whose `results` list is `rs`.
`replyTo = none` models `message.reply_to` falsy or the reply message
not retrievable. -/
structure RawMessage where
  id : Nat
  dateCompact : String
  dateIso : String
  media : Option MediaKind
  reactionsField : Option (List RawReaction)
  replyTo : Option ReplyInfo
deriving DecidableEq

/-- The per-message record stored in the log, mirroring the `msg_info`
dictionary built at scrape.py lines 370-384 field by field. -/
structure MessageRecord where
  id : Nat
  timestamp : String
  dateIso : String
  url : String
  replyText : String
  replyUserId : Option Int
  replyUsername : Option String
  replyName : Option String
  hasReactions : Bool
  totalReactions : Nat
  reactions : List (String × Nat)
  baseFilename : String
  downloaded : Bool
deriving DecidableEq

/-- The persisted aggregate (`log_data`): scan timestamp, the message
map (a JSON object keyed by `str(id)`, modelled as an association list
in insertion order) and `last_successful_id` (scrape.py lines 195-199). -/
structure LogState where
  lastScanTime : Option Nat
  messages : List (Nat × MessageRecord)
  lastSuccessfulId : Option Nat
deriving DecidableEq

/-- `load_log_file` (scrape.py lines 184-199): a missing or malformed
log file yields the fresh empty state, otherwise the parsed state is
returned unchanged.  The argument is the current file content, `none`
standing for both an absent file and unparseable JSON. -/
def load_log_file : Option LogState → LogState
  | none => { lastScanTime := none, messages := [], lastSuccessfulId := none }
  | some s => s

/-- The characters removed by `re.sub(r'[<>:"/\\|?*]', '', text)`
(scrape.py line 246). -/
def invalidFilenameChars : List Char := ['<', '>', ':', '\"', '/', '\\', '|', '?', '*']

/-- `' '.join(str(text).split())` (scrape.py line 244): split on runs of
whitespace, drop empty pieces, rejoin with single spaces. -/
def pySplitJoin (s : String) : String :=
  String.intercalate " " ((s.split (fun c => c.isWhitespace)).filter (fun t => !t.isEmpty))

/-- `re.sub(r'_+', '_', text)` (scrape.py line 250): collapse runs of
underscores to a single underscore. -/
def collapseUnderscores (s : String) : String :=
  String.mk ((s.toList.foldl
    (fun (acc : List Char × Bool) c =>
      if c = '_' then (if acc.2 then acc else (acc.1 ++ ['_'], true))
      else (acc.1 ++ [c], false))
    ([], false)).1)

/-- `sanitize_filename` (scrape.py lines 231-252).  `none` models a
`None` argument.  Steps in source order: whitespace collapse, removal of
path-hostile characters, replacement of whitespace and commas by
underscores, underscore collapsing, truncation to `maxLength`
(`'untitled'` when the result is empty). -/
def sanitize_filename (t : Option String) (maxLength : Nat) : String :=
  match t with
  | none => "unnamed"
  | some text =>
    let text := pySplitJoin text
    let text := String.mk (text.toList.filter (fun c => decide (c ∉ invalidFilenameChars)))
    let text := String.mk (text.toList.map (fun c => if c.isWhitespace || c = ',' then '_' else c))
    let text := collapseUnderscores text
    if text = "" then "untitled" else String.mk (text.toList.take maxLength)

/-- The reply metadata extraction of scrape.py lines 324-341, returning
`(reply_text, reply_user_id, reply_username, reply_name)`.  Python's
`(first + " " + last).strip() or username or str(id)` falsy-chaining is
written out with explicit empty-string tests. -/
def replyFields (ri : Option ReplyInfo) :
    Option String × Option Int × Option String × Option String :=
  match ri with
  | none => (none, none, none, none)
  | some info =>
    match info.sender with
    | none => (info.text, none, none, none)
    | some s =>
      let first := s.firstName.getD ""
      let last := s.lastName.getD ""
      let name0 := (first ++ " " ++ last).trim
      let name :=
        if name0 = "" then
          match s.username with
          | some u => if u = "" then toString s.senderId else u
          | none => toString s.senderId
        else name0
      (info.text, some s.senderId, s.username, some name)

/-- The classifier inlined in `get_qualified_messages`
(scrape.py lines 321-384): a record is built only when
`message.reactions` is truthy AND the message carries
`MessageMediaPhoto`; all `msg_info` fields are computed as in source. -/
def classify (chan : String) (m : RawMessage) : Option MessageRecord :=
  match m.reactionsField with
  | none => none
  | some rs =>
    match m.media with
    | none => none
    | some MediaKind.other => none
    | some MediaKind.photo =>
      let rf := replyFields m.replyTo
      let replyText :=
        match rf.1 with
        | some t => if t = "" then "no_reply_text" else t
        | none => "no_reply_text"
      let reactionDetails := rs.map (fun r => (r.emoji, r.count))
      let totalReactions := rs.foldl (fun acc r => acc + r.count) 0
      let nameArg : String :=
        match rf.2.2.2 with
        | some n => if n = "" then "unnamed" else n
        | none => "unnamed"
      let baseFilename :=
        m.dateCompact ++ "_" ++ sanitize_filename (some nameArg) 50 ++ "_r" ++
          toString totalReactions ++ "_" ++ sanitize_filename (some replyText) 50
      some {
        id := m.id
        timestamp := m.dateCompact
        dateIso := m.dateIso
        url := "https://t.me/" ++ chan ++ "/" ++ toString m.id
        replyText := replyText
        replyUserId := rf.2.1
        replyUsername := rf.2.2.1
        replyName := rf.2.2.2
        hasReactions := !rs.isEmpty
        totalReactions := totalReactions
        reactions := reactionDetails
        baseFilename := baseFilename
        downloaded := false }

/-- `latest_msg_id` (scrape.py lines 289-292): the running maximum of
ALL message ids present in the log, starting from 0 - the `downloaded`
flag plays no role in it. -/
def latest_msg_id (msgs : List (Nat × MessageRecord)) : Nat :=
  msgs.foldl (fun acc p => max acc p.1) 0

/-- The lower bound actually passed as `min_id` to `iter_messages`
(scrape.py line 317).  `args.resume_from` is parsed (line 116) and
printed (lines 511-512) but never feeds into this bound, hence the
unused second argument. -/
def scanLowerBound (log : LogState) (_resume_from : Option Nat) : Nat :=
  latest_msg_id log.messages

/-- Refinement comparison only - the resume point as the specification
words it: the maximum id among records already marked
`downloaded == true` (0 when there is none). -/
def resumePointSpec (msgs : List (Nat × MessageRecord)) : Nat :=
  msgs.foldl (fun acc p => if p.2.downloaded then max acc p.1 else acc) 0

/-- Model of `client.iter_messages(channel, min_id=.., reverse=True)`
(scrape.py lines 315-320): the source stream, given oldest-first,
restricted to ids strictly greater than `minId`. -/
def iter_messages (source : List RawMessage) (minId : Nat) : List RawMessage :=
  source.filter (fun m => decide (minId < m.id))

/-- `log_data['messages'][str(msg.id)] = msg` (scrape.py lines 387 and
592): Python dict assignment - update in place when the key exists,
append otherwise. -/
def insertMsg (msgs : List (Nat × MessageRecord)) (r : MessageRecord) :
    List (Nat × MessageRecord) :=
  if msgs.any (fun p => decide (p.1 = r.id)) then
    msgs.map (fun p => if p.1 = r.id then (p.1, r) else p)
  else msgs ++ [(r.id, r)]

/-- The re-qualification pass over already-logged records
(scrape.py lines 290-309, user filters off): skip records with
`downloaded` set unless force-redownload, keep those with reactions
unless the category is skipped. -/
def qualifiedFromLog (log : LogState) (skipAll force : Bool) : List MessageRecord :=
  ((log.messages.filter (fun p => !(p.2.downloaded && !force))).filter
    (fun p => p.2.hasReactions && !skipAll)).map (fun p => p.2)

/-- `if args.limit and len(...) >= args.limit` (scrape.py line 424):
a limit of 0 is falsy and therefore no limit. -/
def limitReached (limit : Option Nat) (count : Nat) : Bool :=
  match limit with
  | none => false
  | some n => decide (n ≠ 0) && decide (n ≤ count)

/-- The scan loop of `get_qualified_messages` (scrape.py lines 315-426,
user filters off): classify each streamed message, store positives in
the log, append reaction-carrying ones to the qualified list, stop early
on the download limit. -/
def scanLoop (chan : String) (skipAll : Bool) (limit : Option Nat) :
    List RawMessage → LogState → List MessageRecord → LogState × List MessageRecord
  | [], log, qual => (log, qual)
  | m :: rest, log, qual =>
    match classify chan m with
    | none => scanLoop chan skipAll limit rest log qual
    | some r =>
      let log' := { log with messages := insertMsg log.messages r }
      let qual' := if r.hasReactions && !skipAll then qual ++ [r] else qual
      if limitReached limit qual'.length then (log', qual')
      else scanLoop chan skipAll limit rest log' qual'

/-- `get_qualified_messages` (scrape.py lines 268-438, no user filter):
load the log, re-qualify logged records, scan strictly past the resume
lower bound, stamp `last_scan_time`.  The checkpoint call at line 430 is
performed by `download_reacted_media` below. -/
def get_qualified_messages (chan : String) (source : List RawMessage)
    (logFile : Option LogState) (skipAll force : Bool) (limit : Option Nat)
    (resume_from : Option Nat) (now : Nat) : LogState × List MessageRecord :=
  let log := load_log_file logFile
  let res := scanLoop chan skipAll limit
    (iter_messages source (scanLowerBound log resume_from)) log
    (qualifiedFromLog log skipAll force)
  ({ res.1 with lastScanTime := some now }, res.2)

/-- `CHECKPOINT_INTERVAL` (scrape.py line 99).  The parsed
`--checkpoint-interval` option never reaches `save_checkpoint`; the
constant 10 is what the code uses. -/
def CHECKPOINT_INTERVAL : Nat := 10

/-- Count of records with the `downloaded` flag set
(scrape.py lines 204-205). -/
def downloadedCount (s : LogState) : Nat :=
  (s.messages.filter (fun p => p.2.downloaded)).length

/-- The save condition of `save_checkpoint` (scrape.py line 211):
forced, final, or downloaded count divisible by the interval -
divisibility, not positive-multiple, so a count of 0 also saves. -/
def shouldCheckpoint (s : LogState) (force isFinal : Bool) : Bool :=
  force || isFinal || decide (downloadedCount s % CHECKPOINT_INTERVAL = 0)

/-- `save_checkpoint` (scrape.py lines 201-229) at the level of the
persisted content: given the current file content, returns the new file
content and whether a write happened.  A write stores the in-memory
state verbatim - the function maintains no field of it. -/
def save_checkpoint (file : Option LogState) (s : LogState) (force isFinal : Bool) :
    Option LogState × Bool :=
  if shouldCheckpoint s force isFinal then (some s, true) else (file, false)

/-- The contents the log file passes through during the write of
`save_checkpoint` (scrape.py lines 221-222): `open(LOG_FILE, 'w')`
truncates the file to empty on open, then `json.dump` writes the new
serialisation.  An interruption observes one of these three states. -/
def saveWritePhases (old new : String) : List String := [old, "", new]

/-- The log file and its `.bak` sibling. -/
structure FsLog where
  main : Option String
  bak : Option String
deriving DecidableEq

/-- The one-time backup step of `save_checkpoint` (scrape.py lines
213-218): before the first write of the process, an existing log file is
copied to `.bak`; afterwards (`hasBackup = true`) nothing is copied. -/
def backupIfFirst (hasBackup : Bool) (fs : FsLog) : FsLog :=
  if hasBackup then fs
  else
    match fs.main with
    | some c => { fs with bak := some c }
    | none => fs

/-- Outcome of one `client.download_media` attempt inside
`download_media_with_retry` (scrape.py lines 474-491): a truthy result,
a falsy result, a `FloodWaitError` carrying the server wait, or another
exception. -/
inductive AttemptOutcome
  | ok
  | noResult
  | floodWait (seconds : Nat)
  | err (msg : String)
deriving DecidableEq

/-- How `download_media_with_retry` terminates: a returned path,
`None` after the loop, or a re-raised exception. -/
inductive RetryResult
  | success
  | noMedia
  | raisedFlood (seconds : Nat)
  | raisedErr (msg : String)
deriving DecidableEq

/-- `download_media_with_retry` (scrape.py lines 471-492): up to
`maxRetries` attempts; a flood wait before the last attempt sleeps the
server-specified seconds and retries, other errors sleep 1 second and
retry; on the last attempt the exception is re-raised; a falsy result
just moves to the next attempt and yields `None` after the loop.
The accumulated sleep durations are returned alongside the outcome. -/
def download_media_with_retry (outcomes : Nat → AttemptOutcome)
    (maxRetries attempt : Nat) (slept : List Nat) : RetryResult × List Nat :=
  if _h : attempt < maxRetries then
    match outcomes attempt with
    | AttemptOutcome.ok => (RetryResult.success, slept)
    | AttemptOutcome.noResult =>
      download_media_with_retry outcomes maxRetries (attempt + 1) slept
    | AttemptOutcome.floodWait s =>
      if attempt < maxRetries - 1 then
        download_media_with_retry outcomes maxRetries (attempt + 1) (slept ++ [s])
      else (RetryResult.raisedFlood s, slept)
    | AttemptOutcome.err e =>
      if attempt < maxRetries - 1 then
        download_media_with_retry outcomes maxRetries (attempt + 1) (slept ++ [1])
      else (RetryResult.raisedErr e, slept)
  else (RetryResult.noMedia, slept)
termination_by maxRetries - attempt
decreasing_by all_goals omega

/-- The error string the orchestrator's `except` block records for each
way a fetch can fail (scrape.py lines 584-585 and 610-615); `none` means
the fetch succeeded. -/
def errorString : RetryResult → Option String
  | RetryResult.success => none
  | RetryResult.noMedia => some "Download failed - no media returned"
  | RetryResult.raisedFlood s => some ("FloodWaitError: " ++ toString s)
  | RetryResult.raisedErr e => some e

/-- The deterministic target path of a record
(scrape.py line 567): `downloads/all_reactions/<base_filename>.jpg`. -/
def targetPath (r : MessageRecord) : String :=
  "downloads/all_reactions/" ++ r.baseFilename ++ ".jpg"

/-- Mutable state threaded through the download loop of
`download_reacted_media` (scrape.py lines 531-539): the filesystem (set
of existing paths), the log, the succeeded/failed collections, the
number of media-fetch operations issued and the sleeps performed. -/
structure DownloadState where
  fs : List String
  log : LogState
  succeeded : List MessageRecord
  failed : List (MessageRecord × String)
  fetches : Nat
  sleeps : List Nat
deriving DecidableEq

/-- Initial download state. -/
def initState (fs : List String) (log : LogState) : DownloadState :=
  { fs := fs, log := log, succeeded := [], failed := [], fetches := 0, sleeps := [] }

/-- Processing of one qualified record (scrape.py lines 563-616): skip
when the target path already exists and force-redownload is off;
otherwise fetch through the retry wrapper, and on success write the
file, re-store the record in the log and append to `succeeded`; any
failure is caught and appended to `failed`.  `oracle n` gives the
attempt outcomes of the n-th fetch operation of the run. -/
def processOne (force : Bool) (maxRetries : Nat) (oracle : Nat → Nat → AttemptOutcome)
    (st : DownloadState) (r : MessageRecord) : DownloadState :=
  let path := targetPath r
  if path ∈ st.fs ∧ force = false then
    { st with succeeded := st.succeeded ++ [r] }
  else
    let res := download_media_with_retry (oracle st.fetches) maxRetries 0 []
    let st := { st with fetches := st.fetches + 1, sleeps := st.sleeps ++ res.2 }
    match errorString res.1 with
    | none =>
      { st with
        fs := path :: st.fs
        log := { st.log with messages := insertMsg st.log.messages r }
        succeeded := st.succeeded ++ [r] }
    | some e => { st with failed := st.failed ++ [(r, e)] }

/-- The download loop over all qualified records (scrape.py lines
555-616).  The batching of lines 555-563 only groups the metadata
retrieval; records are still processed one by one in order. -/
def downloadLoop (force : Bool) (maxRetries : Nat) (oracle : Nat → Nat → AttemptOutcome) :
    List MessageRecord → DownloadState → DownloadState
  | [], st => st
  | r :: rest, st =>
    downloadLoop force maxRetries oracle rest (processOne force maxRetries oracle st r)

/-- What one run of `download_reacted_media` produces and leaves behind. -/
structure RunResult where
  log : LogState
  persisted : Option LogState
  fs : List String
  succeeded : List MessageRecord
  failed : List (MessageRecord × String)
  mediaFetches : Nat
deriving DecidableEq

/-- `download_reacted_media` (scrape.py lines 500-621, main category
only, dry-run and verify-only off): scan, checkpoint at scan end
(line 430), download loop, final save (line 621). -/
def download_reacted_media (chan : String) (source : List RawMessage)
    (logFile : Option LogState) (fs₀ : List String) (skipAll force : Bool)
    (limit : Option Nat) (resume_from : Option Nat) (maxRetries : Nat)
    (oracle : Nat → Nat → AttemptOutcome) (now : Nat) : RunResult :=
  let scanned := get_qualified_messages chan source logFile skipAll force limit resume_from now
  let file₁ := (save_checkpoint logFile scanned.1 false false).1
  let d := downloadLoop force maxRetries oracle scanned.2 (initState fs₀ scanned.1)
  let file₂ := (save_checkpoint file₁ d.log false true).1
  { log := d.log, persisted := file₂, fs := d.fs, succeeded := d.succeeded,
    failed := d.failed, mediaFetches := d.fetches }

/-- The ephemeral record of an attempted download
(scrape.py lines 593-597): the record id, the path written and the
expected size captured right after the write. -/
structure DownloadAttempt where
  recordId : Nat
  targetPath : String
  expectedSize : Nat
deriving DecidableEq

/-- Size lookup on a filesystem modelled as path/size pairs
(`os.path.getsize`; `none` models a missing file). -/
def lookupSize (fs : List (String × Nat)) (path : String) : Option Nat :=
  (fs.find? (fun p => decide (p.1 = path))).map (fun p => p.2)

/-- The per-entry update setting the `downloaded` flag of the record
keyed `k`, leaving every other entry unchanged. -/
def markFn (k : Nat) (p : Nat × MessageRecord) : Nat × MessageRecord :=
  if p.1 = k then (p.1, { p.2 with downloaded := true }) else p

/-- Modelled from the spec (section 4.5, Verifier, match case): mark
`state.messages[id].downloaded = true` and advance `lastSuccessfulID`
when this id exceeds the current value or none is set.  No function in
src/ performs this mutation; `verify_downloads` is only invoked
(scrape.py line 525). -/
def markDownloaded (s : LogState) (id : Nat) : LogState :=
  { s with
    messages := s.messages.map (markFn id)
    lastSuccessfulId := some (max id (s.lastSuccessfulId.getD 0)) }

/-- Outcome of verifying one attempt: resulting filesystem, resulting
log state and the failure reason when verification failed. -/
structure VerifyOutcome where
  fs : List (String × Nat)
  log : LogState
  failure : Option String
deriving DecidableEq

/-- Modelled from the spec: `verify_downloads` is called at scrape.py
line 525 but never defined under src/.  Per spec section 4.5, each
attempt's file must exist and match the expected size exactly; a match
marks the record downloaded and advances `lastSuccessfulID`; a mismatch
deletes the file and emits `"size mismatch: expected X got Y"`; a
missing file emits `"not found"`; in both failure cases the record's
`downloaded` flag is left untouched. -/
def verify_attempt (fs : List (String × Nat)) (s : LogState) (a : DownloadAttempt) :
    VerifyOutcome :=
  match lookupSize fs a.targetPath with
  | none => { fs := fs, log := s, failure := some "not found" }
  | some sz =>
    if sz = a.expectedSize then
      { fs := fs, log := markDownloaded s a.recordId, failure := none }
    else
      { fs := fs.filter (fun p => decide (p.1 ≠ a.targetPath))
        log := s
        failure := some ("size mismatch: expected " ++ toString a.expectedSize ++
          " got " ++ toString sz) }

/-- The maximum id among records whose `downloaded` flag is true, `none`
when no record has it - the quantity the spec says
`last_successful_id` always equals. -/
def maxDownloadedId : List (Nat × MessageRecord) → Option Nat
  | [] => none
  | p :: rest =>
    if p.2.downloaded then some (max p.1 ((maxDownloadedId rest).getD 0))
    else maxDownloadedId rest

/-- The keys of the message map are pairwise distinct - automatic for a
Python dict, an invariant of the association-list model. -/
def NodupKeys (msgs : List (Nat × MessageRecord)) : Prop :=
  (msgs.map Prod.fst).Nodup

/-- The log states reachable through the operations of the pipeline:
the fresh state of `load_log_file`, insertion of a freshly classified
record (scrape.py line 387; its id exceeds every logged id, so the key
is new), re-insertion of a record already present verbatim (line 592),
stamping the scan time (line 429), and the spec-modelled verifier acting
on a logged record. -/
inductive Reachable : LogState → Prop
  | fresh : Reachable (load_log_file none)
  | scanInsert (s : LogState) (r : MessageRecord) (h : Reachable s)
      (hfresh : ∀ p ∈ s.messages, p.1 ≠ r.id) (hdl : r.downloaded = false) :
      Reachable { s with messages := insertMsg s.messages r }
  | reinsert (s : LogState) (r : MessageRecord) (h : Reachable s)
      (hmem : (r.id, r) ∈ s.messages) :
      Reachable { s with messages := insertMsg s.messages r }
  | scanTime (s : LogState) (t : Nat) (h : Reachable s) :
      Reachable { s with lastScanTime := some t }
  | verified (s : LogState) (fs : List (String × Nat)) (a : DownloadAttempt)
      (h : Reachable s) (hmem : ∃ r, (a.recordId, r) ∈ s.messages) :
      Reachable (verify_attempt fs s a).log

/-- The derived statistics `ProgressTracker.update` returns
(scrape.py lines 453-458), floats modelled as rationals. -/
structure ProgressStats where
  percent : Rat
  elapsed : Rat
  remaining : Rat
  rate : Rat
deriving DecidableEq

/-- The counter state of `ProgressTracker` (scrape.py lines 442-445). -/
structure ProgressTracker where
  total : Nat
  completed : Nat
deriving DecidableEq

/-- `ProgressTracker.update` (scrape.py lines 447-458).  `rate` and
`remaining` are guarded against zero divisors by explicit conditionals
in the source; `completed / self.total` is not, so Python raises
`ZeroDivisionError` when the tracker was built with `total = 0` -
modelled by the error branch.  `elapsed` is `time.time() - start`. -/
def ProgressTracker.update (t : ProgressTracker) (elapsed : Rat) (items : Nat) :
    Except String (ProgressTracker × ProgressStats) :=
  let completed := t.completed + items
  let rate : Rat := if 0 < elapsed then (completed : Rat) / elapsed else 0
  let remaining : Rat := if 0 < rate then ((t.total : Rat) - (completed : Rat)) / rate else 0
  if t.total = 0 then Except.error "ZeroDivisionError: division by zero"
  else
    Except.ok ({ t with completed := completed },
      { percent := ((completed : Rat) / (t.total : Rat)) * 100
        elapsed := elapsed
        remaining := remaining
        rate := rate })


/-! ## Concrete inputs used by witnesses and counterexamples -/

/-- The per-message log entries a scan of `ms` produces: one
`(id, record)` pair per classified message. -/
def classifiedPairs (chan : String) (ms : List RawMessage) : List (Nat × MessageRecord) :=
  ms.filterMap (fun m => (classify chan m).map (fun r => (r.id, r)))

/-- The records a scan of `ms` classifies, in stream order. -/
def classifiedRecs (chan : String) (ms : List RawMessage) : List MessageRecord :=
  ms.filterMap (classify chan)

/-- A filesystem holding one 5-byte file whose attempt expected 7 bytes. -/
def wFsC2 : List (String × Nat) := [("downloads/all_reactions/w.jpg", 5)]

/-- The attempt record for that file. -/
def wAttC2 : DownloadAttempt :=
  { recordId := 9, targetPath := "downloads/all_reactions/w.jpg", expectedSize := 7 }

/-- A record with id 5 that is logged but NOT downloaded. -/
def exRec5 : MessageRecord :=
  { id := 5, timestamp := "t", dateIso := "d", url := "u", replyText := "x",
    replyUserId := none, replyUsername := none, replyName := none,
    hasReactions := true, totalReactions := 1, reactions := [("+", 1)],
    baseFilename := "f5", downloaded := false }

/-- A log whose only record (id 5) has `downloaded = false`. -/
def exLog3 : LogState :=
  { lastScanTime := none, messages := [(5, exRec5)], lastSuccessfulId := none }

/-- A source message with id 3, photo media and one reaction. -/
def exSrc3 : RawMessage :=
  { id := 3, dateCompact := "t3", dateIso := "d3", media := some MediaKind.photo,
    reactionsField := some [{ emoji := "+", count := 1 }], replyTo := none }

/-- A raw message with photo media and reply metadata but a falsy
`reactions` attribute. -/
def c5Sender : ReplySender :=
  { senderId := 42, username := some "alice", firstName := some "Alice", lastName := none }

/-- The reply metadata of `c5Msg`. -/
def c5Reply : ReplyInfo := { text := some "hello", sender := some c5Sender }

/-- A raw message with photo media and reply metadata but a falsy
`reactions` attribute (continued). -/
def c5Msg : RawMessage :=
  { id := 7, dateCompact := "t7", dateIso := "d7", media := some MediaKind.photo,
    reactionsField := none, replyTo := some c5Reply }

/-- The raw message used by the C4 witness. -/
def wMsgC4 : RawMessage :=
  { id := 1, dateCompact := "t1", dateIso := "d1", media := some MediaKind.photo,
    reactionsField := some [{ emoji := "+", count := 2 }], replyTo := none }

/-- Record for the C1 witness: id 4, classified and not yet downloaded. -/
def wRec1 : MessageRecord :=
  { id := 4, timestamp := "t", dateIso := "d", url := "u", replyText := "x",
    replyUserId := none, replyUsername := none, replyName := none,
    hasReactions := true, totalReactions := 1, reactions := [("+", 1)],
    baseFilename := "f4", downloaded := false }

/-- The log after scanning `wRec1` into the fresh state. -/
def wLog1 : LogState :=
  { load_log_file none with messages := insertMsg (load_log_file none).messages wRec1 }

/-- The attempt verifying `wRec1`'s file. -/
def wAtt1 : DownloadAttempt :=
  { recordId := 4, targetPath := targetPath wRec1, expectedSize := 9 }

/-- A filesystem where `wRec1`'s file has the expected size. -/
def wFs1 : List (String × Nat) := [(targetPath wRec1, 9)]

/-- The log after the verifier marks `wRec1` downloaded. -/
def wLog2 : LogState := (verify_attempt wFs1 wLog1 wAtt1).log

/-! ## Helper lemmas -/

lemma foldl_max_init_le (l : List (Nat × MessageRecord)) :
    ∀ a : Nat, a ≤ l.foldl (fun acc p => max acc p.1) a := by
  induction l with
  | nil => intro a; exact le_refl a
  | cons q rest ih =>
    intro a
    exact le_trans (le_max_left a q.1) (ih (max a q.1))

lemma latest_ge (msgs : List (Nat × MessageRecord)) (p : Nat × MessageRecord)
    (hp : p ∈ msgs) : p.1 ≤ latest_msg_id msgs := by
  unfold latest_msg_id
  generalize 0 = a
  induction msgs generalizing a with
  | nil => cases hp
  | cons q rest ih =>
    rcases List.mem_cons.mp hp with hq | hrest
    · subst hq
      exact le_trans (le_max_right a p.1) (foldl_max_init_le rest (max a p.1))
    · exact ih hrest (max a q.1)

lemma lookupSize_erase (fs : List (String × Nat)) (path : String) :
    lookupSize (fs.filter (fun p => decide (p.1 ≠ path))) path = none := by
  unfold lookupSize
  have h : (fs.filter (fun p => decide (p.1 ≠ path))).find?
      (fun p => decide (p.1 = path)) = none := by
    rw [List.find?_eq_none]
    intro x hx
    have hx2 := (List.mem_filter.mp hx).2
    simp only [decide_eq_true_eq] at hx2 ⊢
    exact hx2
  rw [h]
  rfl

/-! ## C2: size-mismatch verification -/

/-- C2: for every download attempt whose on-disk size differs from the
expected size captured at download time, the (spec-modelled) verifier
deletes the file, reports a failure with the
`"size mismatch: expected X got Y"` reason, and leaves the log state -
hence every record's `downloaded` flag - unchanged. -/
theorem c2_size_mismatch (fs : List (String × Nat)) (s : LogState) (a : DownloadAttempt)
    (sz : Nat) (hfound : lookupSize fs a.targetPath = some sz)
    (hne : sz ≠ a.expectedSize) :
    lookupSize (verify_attempt fs s a).fs a.targetPath = none
    ∧ (verify_attempt fs s a).failure =
        some ("size mismatch: expected " ++ toString a.expectedSize ++
          " got " ++ toString sz)
    ∧ (verify_attempt fs s a).log = s := by
  have hv : verify_attempt fs s a =
      { fs := fs.filter (fun p => decide (p.1 ≠ a.targetPath)), log := s,
        failure := some ("size mismatch: expected " ++ toString a.expectedSize ++
          " got " ++ toString sz) } := by
    unfold verify_attempt
    rw [hfound]
    simp [hne]
  rw [hv]
  exact ⟨lookupSize_erase fs a.targetPath, rfl, rfl⟩

/-- Witness for C2 at a concrete mismatching attempt. -/
theorem c2_witness :
    lookupSize (verify_attempt wFsC2 (load_log_file none) wAttC2).fs wAttC2.targetPath = none
    ∧ (verify_attempt wFsC2 (load_log_file none) wAttC2).failure =
        some ("size mismatch: expected " ++ toString wAttC2.expectedSize ++
          " got " ++ toString (5 : Nat))
    ∧ (verify_attempt wFsC2 (load_log_file none) wAttC2).log = load_log_file none :=
  c2_size_mismatch wFsC2 (load_log_file none) wAttC2 5 rfl (by decide)

/-! ## C3: resume point -/

/-- Counterexample to C3: with a single non-downloaded record of id 5,
the code's scan lower bound is 5, while the claim's resume point (max id
among `downloaded == true` records) is 0 - and an explicit resume-from
override of 3 is ignored.  Consequently the not-yet-downloaded message
with id 3, strictly newer than the claimed resume point, is never
requested from the source. -/
theorem c3_counterexample :
    scanLowerBound exLog3 none = 5
    ∧ resumePointSpec exLog3.messages = 0
    ∧ scanLowerBound exLog3 (some 3) ≠ 3
    ∧ iter_messages [exSrc3] (scanLowerBound exLog3 none) = []
    ∧ iter_messages [exSrc3] (resumePointSpec exLog3.messages) = [exSrc3] :=
  ⟨rfl, rfl, by decide, rfl, rfl⟩

/-- C3 amended: the scan lower bound is the maximum id over ALL logged
records regardless of their `downloaded` flag, the resume-from override
has no effect on it, and the scan requests exactly the messages with id
strictly greater than that bound, in ascending (oldest-first) order. -/
theorem c3_amended (log : LogState) (rf₁ rf₂ : Option Nat) (source : List RawMessage)
    (hs : source.Pairwise (fun a b => a.id < b.id)) :
    scanLowerBound log rf₁ = scanLowerBound log rf₂
    ∧ (∀ p ∈ log.messages, p.1 ≤ scanLowerBound log rf₁)
    ∧ (∀ m ∈ iter_messages source (scanLowerBound log rf₁), scanLowerBound log rf₁ < m.id)
    ∧ (iter_messages source (scanLowerBound log rf₁)).Pairwise (fun a b => a.id < b.id) := by
  refine ⟨rfl, fun p hp => latest_ge _ _ hp, ?_, ?_⟩
  · intro m hm
    have h2 := (List.mem_filter.mp hm).2
    simpa using h2
  · exact List.Pairwise.sublist (List.filter_sublist source) hs

/-- Witness for C3 amended, at the counterexample's log and a singleton
ascending source. -/
theorem c3_witness :
    scanLowerBound exLog3 none = scanLowerBound exLog3 (some 3)
    ∧ (∀ p ∈ exLog3.messages, p.1 ≤ scanLowerBound exLog3 none)
    ∧ (∀ m ∈ iter_messages [exSrc3] (scanLowerBound exLog3 none),
        scanLowerBound exLog3 none < m.id)
    ∧ (iter_messages [exSrc3] (scanLowerBound exLog3 none)).Pairwise
        (fun a b => a.id < b.id) :=
  c3_amended exLog3 none (some 3) [exSrc3] (by simp)

/-! ## C5: classifier gate -/

/-- Counterexample to C5: a message with supported media and reply
metadata but a falsy `reactions` attribute is NOT classified and NOT
recorded in `state.messages` - the classifier's gate is
`message.reactions and message.media`, so reply metadata alone never
qualifies. -/
theorem c5_counterexample :
    classify "chan" c5Msg = none
    ∧ (get_qualified_messages "chan" [c5Msg] none false false none none 0).1.messages = [] :=
  ⟨rfl, rfl⟩

/-- C5 amended: the classifier creates a record exactly when the raw
message has a present (non-null) `reactions` attribute AND photo media;
reply metadata plays no role in qualification, and a message whose
reactions attribute is present but empty is still recorded (with
`hasReactions = false`). -/
theorem c5_amended (chan : String) (m : RawMessage) :
    (classify chan m).isSome = true ↔
      (m.reactionsField.isSome = true ∧ m.media = some MediaKind.photo) := by
  rcases m with ⟨id, dc, di, media, rf, rt⟩
  rcases rf with _ | rs <;> rcases media with _ | k
  · simp [classify]
  · cases k <;> simp [classify]
  · simp [classify]
  · cases k <;> simp [classify]

/-! ## C6: checkpoint cadence -/

/-- Counterexample to C6: with zero downloaded records, a non-forced,
non-final checkpoint call DOES write (0 is a multiple of 10), contrary
to the claim's "positive multiple" and "does not write at zero". -/
theorem c6_counterexample :
    downloadedCount (load_log_file none) = 0
    ∧ (save_checkpoint none (load_log_file none) false false).2 = true :=
  ⟨rfl, rfl⟩

/-- C6 amended: with interval 10, `save_checkpoint` persists exactly
when forced, final, or the `downloaded == true` count is divisible by 10
- including a count of zero; every write stores the state verbatim. -/
theorem c6_amended (file : Option LogState) (s : LogState) (force final : Bool) :
    ((save_checkpoint file s force final).2 = true ↔
      force = true ∨ final = true ∨ downloadedCount s % CHECKPOINT_INTERVAL = 0)
    ∧ ((save_checkpoint file s force final).2 = true →
      (save_checkpoint file s force final).1 = some s) := by
  cases hsc : shouldCheckpoint s force final with
  | true =>
    have hcond : force = true ∨ final = true ∨
        downloadedCount s % CHECKPOINT_INTERVAL = 0 := by
      have h := hsc
      unfold shouldCheckpoint at h
      simp only [Bool.or_eq_true, decide_eq_true_eq] at h
      tauto
    simp [save_checkpoint, hsc, hcond]
  | false =>
    have h1 : force = false ∧ final = false ∧
        ¬(downloadedCount s % CHECKPOINT_INTERVAL = 0) := by
      have h := hsc
      unfold shouldCheckpoint at h
      simp only [Bool.or_eq_false_iff, decide_eq_false_iff_not] at h
      exact ⟨h.1.1, h.1.2, h.2⟩
    have hs2 : save_checkpoint file s force final = (file, false) := by
      unfold save_checkpoint
      rw [hsc]
      simp
    rw [hs2]
    constructor
    · simp [h1.1, h1.2.1, h1.2.2]
    · simp

/-- Witness for C6 amended: a forced save on the fresh state writes and
persists the state verbatim. -/
theorem c6_witness :
    (save_checkpoint none (load_log_file none) true false).1 = some (load_log_file none) :=
  (c6_amended none (load_log_file none) true false).2 rfl

/-! ## C7: checkpoint write atomicity -/

/-- Counterexample to C7: the in-place truncate-then-write of
`save_checkpoint` passes through a file state (the empty truncated file)
that is neither the previously committed content nor the new content,
so a failure partway corrupts the committed file. -/
theorem c7_counterexample :
    ¬ ∀ c ∈ saveWritePhases "committed" "fresh", c = "committed" ∨ c = "fresh" := by
  decide

/-- C7 amended: `save_checkpoint` overwrites the log file in place by
truncating and rewriting, so an interruption can leave the file empty -
differing from both the old and the new contents; the only protection is
a single `.bak` copy of the pre-existing file taken before the first
write of the process. -/
theorem c7_amended (old new : String) (b₀ : Option String)
    (h₁ : old ≠ "") (h₂ : new ≠ "") :
    (backupIfFirst false { main := some old, bak := b₀ }).bak = some old
    ∧ ∃ c ∈ saveWritePhases old new, c ≠ old ∧ c ≠ new := by
  refine ⟨rfl, ⟨"", ?_, fun h => h₁ h.symm, fun h => h₂ h.symm⟩⟩
  simp [saveWritePhases]

/-- Witness for C7 amended at concrete file contents. -/
theorem c7_witness :
    (backupIfFirst false { main := some "A", bak := none }).bak = some "A"
    ∧ ∃ c ∈ saveWritePhases "A" "B", c ≠ "A" ∧ c ≠ "B" :=
  c7_amended "A" "B" none (by decide) (by decide)

/-! ## C10: ProgressTracker.update division by zero -/

/-- C10: `ProgressTracker.update` divides `completed` by `total` without
a zero guard, so every call on a tracker built with `total = 0` raises
`ZeroDivisionError`, while the rate and remaining-time computations in
the same method are guarded (for any nonzero total the call returns
normally). -/
theorem c10_zero_total_raises (t : ProgressTracker) (elapsed : Rat) (items : Nat) :
    (t.total = 0 → ProgressTracker.update t elapsed items =
      Except.error "ZeroDivisionError: division by zero")
    ∧ (t.total ≠ 0 → ∃ res, ProgressTracker.update t elapsed items = Except.ok res) := by
  constructor
  · intro h
    simp [ProgressTracker.update, h]
  · intro h
    simp only [ProgressTracker.update, if_neg h]
    exact ⟨_, rfl⟩

/-- Witness for C10: a zero-total tracker raises, a nonzero-total one
returns. -/
theorem c10_witness :
    ProgressTracker.update { total := 0, completed := 3 } 2 1 =
      Except.error "ZeroDivisionError: division by zero"
    ∧ ∃ res, ProgressTracker.update { total := 4, completed := 1 } 2 1 = Except.ok res :=
  ⟨(c10_zero_total_raises { total := 0, completed := 3 } 2 1).1 rfl,
   (c10_zero_total_raises { total := 4, completed := 1 } 2 1).2 (by decide)⟩

/-! ## Download loop lemmas -/

lemma retry_flood_all (w : Nat → Nat) (maxR : Nat) :
    ∀ n attempt slept, maxR - attempt = n → attempt < maxR →
      download_media_with_retry (fun i => AttemptOutcome.floodWait (w i)) maxR attempt slept
        = (RetryResult.raisedFlood (w (maxR - 1)),
           slept ++ (List.range' attempt (maxR - 1 - attempt)).map w) := by
  intro n
  induction n with
  | zero => intro attempt slept hfuel hlt; omega
  | succ k ih =>
    intro attempt slept hfuel hlt
    rw [download_media_with_retry]
    rw [dif_pos hlt]
    by_cases hlast : attempt < maxR - 1
    · simp only [hlast, if_true]
      rw [ih (attempt + 1) (slept ++ [w attempt]) (by omega) (by omega)]
      have hsz : maxR - 1 - attempt = (maxR - 1 - (attempt + 1)) + 1 := by omega
      rw [hsz, List.range'_succ, List.map_cons]
      simp
    · simp only [hlast, if_false]
      have ha : attempt = maxR - 1 := by omega
      have h0 : maxR - 1 - attempt = 0 := by omega
      rw [h0, ha]
      simp [List.range']

lemma processOne_counts (force : Bool) (maxR : Nat) (oracle : Nat → Nat → AttemptOutcome)
    (st : DownloadState) (r : MessageRecord) :
    (processOne force maxR oracle st r).succeeded.length
      + (processOne force maxR oracle st r).failed.length
      = st.succeeded.length + st.failed.length + 1 := by
  simp only [processOne]
  split
  · simp [List.length_append]
    omega
  · split
    · simp [List.length_append]
      omega
    · simp [List.length_append]
      omega

lemma downloadLoop_counts (force : Bool) (maxR : Nat) (oracle : Nat → Nat → AttemptOutcome) :
    ∀ (records : List MessageRecord) (st : DownloadState),
      (downloadLoop force maxR oracle records st).succeeded.length
        + (downloadLoop force maxR oracle records st).failed.length
        = st.succeeded.length + st.failed.length + records.length := by
  intro records
  induction records with
  | nil => intro st; simp [downloadLoop]
  | cons r rest ih =>
    intro st
    simp only [downloadLoop]
    rw [ih]
    rw [processOne_counts]
    simp [List.length_cons]
    omega

lemma downloadLoop_all_present (maxR : Nat) (oracle : Nat → Nat → AttemptOutcome) :
    ∀ (records : List MessageRecord) (st : DownloadState),
      (∀ r ∈ records, targetPath r ∈ st.fs) →
      downloadLoop false maxR oracle records st
        = { st with succeeded := st.succeeded ++ records } := by
  intro records
  induction records with
  | nil =>
    intro st _
    simp only [downloadLoop, List.append_nil]
  | cons r rest ih =>
    intro st h
    simp only [downloadLoop]
    have hr : targetPath r ∈ st.fs := h r (List.mem_cons_self r rest)
    have hpo : processOne false maxR oracle st r
        = { st with succeeded := st.succeeded ++ [r] } := by
      unfold processOne
      rw [if_pos ⟨hr, rfl⟩]
    rw [hpo]
    rw [ih { st with succeeded := st.succeeded ++ [r] }
      (fun x hx => h x (List.mem_cons_of_mem r hx))]
    simp

/-! ## C8: rate-limit retry and error containment -/

/-- C8: (i) a flood-wait outcome before the last attempt makes the retry
wrapper record the server-specified sleep and retry; (ii) when every
attempt flood-waits, the wrapper sleeps the first `maxRetries - 1`
server-specified durations and re-raises the final flood error;
(iii) the orchestrator loop always completes, every record landing in
exactly one of `succeeded`/`failed`; (iv) a record whose every attempt
flood-waits becomes a single entry of `failed` carrying the error - the
exception never propagates past the loop. -/
theorem c8_rate_limit_retry :
    (∀ (outcomes : Nat → AttemptOutcome) (maxR attempt : Nat) (slept : List Nat) (s : Nat),
      attempt + 1 < maxR → outcomes attempt = AttemptOutcome.floodWait s →
      download_media_with_retry outcomes maxR attempt slept
        = download_media_with_retry outcomes maxR (attempt + 1) (slept ++ [s]))
    ∧ (∀ (w : Nat → Nat) (maxR : Nat), 0 < maxR →
      download_media_with_retry (fun i => AttemptOutcome.floodWait (w i)) maxR 0 []
        = (RetryResult.raisedFlood (w (maxR - 1)), (List.range (maxR - 1)).map w))
    ∧ (∀ (force : Bool) (maxR : Nat) (oracle : Nat → Nat → AttemptOutcome)
        (records : List MessageRecord) (st : DownloadState),
      (downloadLoop force maxR oracle records st).succeeded.length
        + (downloadLoop force maxR oracle records st).failed.length
        = st.succeeded.length + st.failed.length + records.length)
    ∧ (∀ (r : MessageRecord) (maxR : Nat) (w : Nat → Nat) (log : LogState), 0 < maxR →
      (downloadLoop false maxR (fun _ i => AttemptOutcome.floodWait (w i)) [r]
          (initState [] log)).failed
        = [(r, "FloodWaitError: " ++ toString (w (maxR - 1)))]) := by
  refine ⟨?_, ?_, ?_, ?_⟩
  · intro outcomes maxR attempt slept s hlt hout
    have h1 : attempt < maxR := by omega
    have h2 : attempt < maxR - 1 := by omega
    conv_lhs => rw [download_media_with_retry]
    simp only [dif_pos h1, hout, if_pos h2]
  · intro w maxR hm
    rw [retry_flood_all w maxR (maxR - 0) 0 [] rfl hm]
    simp [List.range_eq_range']
  · intro force maxR oracle records st
    exact downloadLoop_counts force maxR oracle records st
  · intro r maxR w log hm
    simp only [downloadLoop, processOne, initState]
    rw [if_neg (by simp)]
    rw [retry_flood_all w maxR (maxR - 0) 0 [] rfl hm]
    simp [errorString]

/-- Witness for C8 at three flooding attempts with wait 2. -/
theorem c8_witness :
    download_media_with_retry (fun _ => AttemptOutcome.floodWait 2) 3 0 []
      = (RetryResult.raisedFlood 2, [2, 2])
    ∧ (downloadLoop false 3 (fun _ _ => AttemptOutcome.floodWait 2) [exRec5]
        (initState [] (load_log_file none))).failed
      = [(exRec5, "FloodWaitError: 2")] := by
  constructor
  · have h := c8_rate_limit_retry.2.1 (fun _ => 2) 3 (by decide)
    exact h.trans (by decide)
  · have h := c8_rate_limit_retry.2.2.2 exRec5 3 (fun _ => 2) (load_log_file none) (by decide)
    exact h.trans (by decide)

/-! ## C9: skip records whose target already exists -/

/-- C9: with force-redownload off, every qualified record whose
deterministic target path already exists on disk is treated as
satisfied: all such records are appended to `succeeded`, zero media
fetches are issued, the filesystem is untouched and nothing fails. -/
theorem c9_skip_existing (records : List MessageRecord) (fs₀ : List String)
    (log : LogState) (maxR : Nat) (oracle : Nat → Nat → AttemptOutcome)
    (hall : ∀ r ∈ records, targetPath r ∈ fs₀) :
    (downloadLoop false maxR oracle records (initState fs₀ log)).succeeded = records
    ∧ (downloadLoop false maxR oracle records (initState fs₀ log)).fetches = 0
    ∧ (downloadLoop false maxR oracle records (initState fs₀ log)).fs = fs₀
    ∧ (downloadLoop false maxR oracle records (initState fs₀ log)).failed = [] := by
  have h := downloadLoop_all_present maxR oracle records (initState fs₀ log)
    (by simpa [initState] using hall)
  rw [h]
  simp [initState]

/-- Witness for C9: one record whose target pre-exists is succeeded
without any fetch. -/
theorem c9_witness :
    (downloadLoop false 3 (fun _ _ => AttemptOutcome.ok) [exRec5]
        (initState [targetPath exRec5] (load_log_file none))).succeeded = [exRec5]
    ∧ (downloadLoop false 3 (fun _ _ => AttemptOutcome.ok) [exRec5]
        (initState [targetPath exRec5] (load_log_file none))).fetches = 0
    ∧ (downloadLoop false 3 (fun _ _ => AttemptOutcome.ok) [exRec5]
        (initState [targetPath exRec5] (load_log_file none))).fs = [targetPath exRec5]
    ∧ (downloadLoop false 3 (fun _ _ => AttemptOutcome.ok) [exRec5]
        (initState [targetPath exRec5] (load_log_file none))).failed = [] :=
  c9_skip_existing [exRec5] [targetPath exRec5] (load_log_file none) 3
    (fun _ _ => AttemptOutcome.ok) (by simp)

/-! ## Log-state invariant lemmas (C1) -/

lemma nodupKeys_tail (p : Nat × MessageRecord) (rest : List (Nat × MessageRecord))
    (h : NodupKeys (p :: rest)) : NodupKeys rest := by
  unfold NodupKeys at h ⊢
  rw [List.map_cons, List.nodup_cons] at h
  exact h.2

lemma nodupKeys_head (p : Nat × MessageRecord) (rest : List (Nat × MessageRecord))
    (h : NodupKeys (p :: rest)) : p.1 ∉ rest.map Prod.fst := by
  unfold NodupKeys at h
  rw [List.map_cons, List.nodup_cons] at h
  exact h.1

lemma nodupKeys_unique (l : List (Nat × MessageRecord)) (hnd : NodupKeys l)
    (k : Nat) (a b : MessageRecord) (ha : (k, a) ∈ l) (hb : (k, b) ∈ l) : a = b := by
  induction l with
  | nil => cases ha
  | cons p rest ih =>
    rcases List.mem_cons.mp ha with ha1 | ha2 <;> rcases List.mem_cons.mp hb with hb1 | hb2
    · exact congrArg Prod.snd (ha1.trans hb1.symm)
    · exfalso
      apply nodupKeys_head p rest hnd
      have hk : p.1 = k := by rw [← ha1]
      rw [hk]
      exact List.mem_map_of_mem Prod.fst hb2
    · exfalso
      apply nodupKeys_head p rest hnd
      have hk : p.1 = k := by rw [← hb1]
      rw [hk]
      exact List.mem_map_of_mem Prod.fst ha2
    · exact ih (nodupKeys_tail p rest hnd) ha2 hb2

lemma insertMsg_fresh (msgs : List (Nat × MessageRecord)) (r : MessageRecord)
    (hfresh : ∀ p ∈ msgs, p.1 ≠ r.id) :
    insertMsg msgs r = msgs ++ [(r.id, r)] := by
  have h : msgs.any (fun p => decide (p.1 = r.id)) = false := by
    rw [List.any_eq_false]
    intro p hp
    simpa using hfresh p hp
  unfold insertMsg
  rw [h]
  simp

lemma insertMsg_mem (msgs : List (Nat × MessageRecord)) (r : MessageRecord)
    (hnd : NodupKeys msgs) (hmem : (r.id, r) ∈ msgs) :
    insertMsg msgs r = msgs := by
  have h : msgs.any (fun p => decide (p.1 = r.id)) = true := by
    rw [List.any_eq_true]
    exact ⟨(r.id, r), hmem, by simp⟩
  unfold insertMsg
  rw [h]
  simp only [if_true]
  have hcong : ∀ p ∈ msgs, (if p.1 = r.id then (p.1, r) else p) = p := by
    intro p hp
    by_cases hk : p.1 = r.id
    · rw [if_pos hk]
      have hp' : (r.id, p.2) ∈ msgs := by
        rw [← hk]
        exact hp
      have hv : p.2 = r := nodupKeys_unique msgs hnd r.id p.2 r hp' hmem
      calc (p.1, r) = (p.1, p.2) := by rw [hv]
        _ = p := rfl
    · rw [if_neg hk]
  rw [List.map_congr_left hcong]
  simp

lemma markFn_not_mem (msgs : List (Nat × MessageRecord)) (k : Nat)
    (h : ∀ p ∈ msgs, p.1 ≠ k) :
    msgs.map (markFn k) = msgs := by
  induction msgs with
  | nil => rfl
  | cons p rest ih =>
    rw [List.map_cons]
    rw [show markFn k p = p from if_neg (h p (List.mem_cons_self p rest))]
    rw [ih (fun q hq => h q (List.mem_cons_of_mem p hq))]

lemma keys_markFn (msgs : List (Nat × MessageRecord)) (k : Nat) :
    (msgs.map (markFn k)).map Prod.fst = msgs.map Prod.fst := by
  induction msgs with
  | nil => rfl
  | cons p rest ih =>
    simp only [List.map_cons]
    rw [ih]
    by_cases hk : p.1 = k
    · rw [show markFn k p = (p.1, { p.2 with downloaded := true }) from if_pos hk]
    · rw [show markFn k p = p from if_neg hk]

lemma maxDownloadedId_append_not (l : List (Nat × MessageRecord))
    (q : Nat × MessageRecord) (hq : q.2.downloaded = false) :
    maxDownloadedId (l ++ [q]) = maxDownloadedId l := by
  induction l with
  | nil => simp [maxDownloadedId, hq]
  | cons p rest ih => simp [maxDownloadedId, ih]

lemma maxDownloadedId_mark (msgs : List (Nat × MessageRecord)) (k : Nat)
    (hnd : NodupKeys msgs) (hmem : ∃ v, (k, v) ∈ msgs) :
    maxDownloadedId (msgs.map (markFn k))
      = some (max k ((maxDownloadedId msgs).getD 0)) := by
  induction msgs with
  | nil =>
    obtain ⟨v, hv⟩ := hmem
    cases hv
  | cons p rest ih =>
    have hndr : NodupKeys rest := nodupKeys_tail p rest hnd
    by_cases hk : p.1 = k
    · have hrest : ∀ q ∈ rest, q.1 ≠ k := by
        intro q hq he
        exact nodupKeys_head p rest hnd
          (by rw [hk, ← he]; exact List.mem_map_of_mem Prod.fst hq)
      subst hk
      rw [List.map_cons]
      rw [show markFn p.1 p = (p.1, { p.2 with downloaded := true }) from if_pos rfl]
      rw [markFn_not_mem rest p.1 hrest]
      by_cases hd : p.2.downloaded = true
      all_goals simp [maxDownloadedId, hd]
    · have hmem' : ∃ v, (k, v) ∈ rest := by
        obtain ⟨v, hv⟩ := hmem
        rcases List.mem_cons.mp hv with h1 | h2
        · exact absurd (show p.1 = k by rw [← h1]) hk
        · exact ⟨v, h2⟩
      rw [List.map_cons]
      rw [show markFn k p = p from if_neg hk]
      by_cases hd : p.2.downloaded = true
      all_goals simp [maxDownloadedId, hd, ih hndr hmem']
      all_goals try omega

lemma reachable_inv (s : LogState) (h : Reachable s) :
    NodupKeys s.messages ∧ s.lastSuccessfulId = maxDownloadedId s.messages := by
  induction h with
  | fresh => exact ⟨by simp [NodupKeys, load_log_file], rfl⟩
  | scanInsert s r hr hfresh hdl ih =>
    obtain ⟨ihn, ihv⟩ := ih
    refine ⟨?_, ?_⟩
    · show NodupKeys (insertMsg s.messages r)
      rw [insertMsg_fresh s.messages r hfresh]
      unfold NodupKeys
      rw [List.map_append, List.nodup_append]
      refine ⟨ihn, List.nodup_singleton _, ?_⟩
      intro a ha hb
      obtain ⟨p, hp, hpe⟩ := List.mem_map.mp ha
      have hae : a = r.id := by simpa using hb
      exact hfresh p hp (by rw [hpe, hae])
    · show s.lastSuccessfulId = maxDownloadedId (insertMsg s.messages r)
      rw [insertMsg_fresh s.messages r hfresh]
      rw [maxDownloadedId_append_not _ _ hdl]
      exact ihv
  | reinsert s r hr hmem ih =>
    obtain ⟨ihn, ihv⟩ := ih
    have he : insertMsg s.messages r = s.messages := insertMsg_mem _ _ ihn hmem
    refine ⟨?_, ?_⟩
    · show NodupKeys (insertMsg s.messages r)
      rw [he]
      exact ihn
    · show s.lastSuccessfulId = maxDownloadedId (insertMsg s.messages r)
      rw [he]
      exact ihv
  | scanTime s t hr ih => exact ih
  | verified s fs a hr hmem ih =>
    obtain ⟨ihn, ihv⟩ := ih
    unfold verify_attempt
    split
    · exact ⟨ihn, ihv⟩
    · split
      · refine ⟨?_, ?_⟩
        · show ((s.messages.map (markFn a.recordId)).map Prod.fst).Nodup
          rw [keys_markFn]
          exact ihn
        · show some (max a.recordId (s.lastSuccessfulId.getD 0))
            = maxDownloadedId (s.messages.map (markFn a.recordId))
          rw [maxDownloadedId_mark s.messages a.recordId ihn hmem]
          rw [ihv]
      · exact ⟨ihn, ihv⟩

/-! ## C1: checkpoint invariant -/

/-- C1: for every log state reachable through the pipeline's operations,
every checkpoint write persists a state whose `last_successful_id`
equals the maximum id among records with `downloaded = true` (`none`
when no record is downloaded). -/
theorem c1_checkpoint_invariant (s : LogState) (h : Reachable s)
    (file : Option LogState) (force final : Bool)
    (hw : (save_checkpoint file s force final).2 = true) :
    ∃ p, (save_checkpoint file s force final).1 = some p
      ∧ p.lastSuccessfulId = maxDownloadedId p.messages := by
  by_cases hc : shouldCheckpoint s force final = true
  · refine ⟨s, ?_, (reachable_inv s h).2⟩
    unfold save_checkpoint
    rw [hc]
    simp
  · exfalso
    have hc' : shouldCheckpoint s force final = false := by
      revert hc
      cases shouldCheckpoint s force final <;> simp
    unfold save_checkpoint at hw
    rw [hc'] at hw
    simp at hw

/-! ## Scan characterization (C4) -/

lemma classify_id (chan : String) (m : RawMessage) (r : MessageRecord)
    (h : classify chan m = some r) : r.id = m.id ∧ r.downloaded = false := by
  rcases m with ⟨mid, mdc, mdi, mmedia, mrf, mrt⟩
  rcases mrf with _ | rs
  · simp [classify] at h
  · rcases mmedia with _ | k
    · simp [classify] at h
    · cases k
      · simp only [classify] at h
        injection h with h'
        subst h'
        exact ⟨rfl, rfl⟩
      · simp [classify] at h

lemma mem_classifiedRecs_pairs (chan : String) (ms : List RawMessage) (r : MessageRecord)
    (h : r ∈ classifiedRecs chan ms) : (r.id, r) ∈ classifiedPairs chan ms := by
  obtain ⟨m, hm, hc⟩ := List.mem_filterMap.mp h
  exact List.mem_filterMap.mpr ⟨m, hm, by rw [hc]; rfl⟩

lemma classifiedPairs_elim (chan : String) (ms : List RawMessage) (p : Nat × MessageRecord)
    (h : p ∈ classifiedPairs chan ms) :
    p.2 ∈ classifiedRecs chan ms ∧ p.1 = p.2.id ∧ p.2.downloaded = false := by
  obtain ⟨m, hm, hc⟩ := List.mem_filterMap.mp h
  cases ho : classify chan m with
  | none => rw [ho] at hc; cases hc
  | some r =>
    rw [ho] at hc
    simp only [Option.map_some'] at hc
    injection hc with hc'
    obtain ⟨hid, hdl⟩ := classify_id chan m r ho
    subst hc'
    exact ⟨List.mem_filterMap.mpr ⟨m, hm, ho⟩, rfl, hdl⟩

lemma cp_nodupKeys (chan : String) (source : List RawMessage)
    (hs : source.Pairwise (fun a b => a.id < b.id)) :
    NodupKeys (classifiedPairs chan source) := by
  have hpw : (classifiedPairs chan source).Pairwise (fun p q => p.1 < q.1) := by
    unfold classifiedPairs
    rw [List.pairwise_filterMap]
    refine List.Pairwise.imp ?_ hs
    intro a b hab x hx y hy
    rcases ha : classify chan a with _ | ra
    · rw [ha] at hx; cases hx
    · rw [ha] at hx
      rcases hb : classify chan b with _ | rb
      · rw [hb] at hy; cases hy
      · rw [hb] at hy
        simp only [Option.map_some', Option.mem_def, Option.some.injEq] at hx hy
        rw [← hx, ← hy]
        show ra.id < rb.id
        rw [(classify_id chan a ra ha).1, (classify_id chan b rb hb).1]
        exact hab
  unfold NodupKeys
  have hmap : ((classifiedPairs chan source).map Prod.fst).Pairwise (fun a b => a < b) :=
    List.pairwise_map.mpr hpw
  exact hmap.imp (fun hab => Nat.ne_of_lt hab)

lemma iter_messages_all (source : List RawMessage) (hpos : ∀ m ∈ source, 0 < m.id) :
    iter_messages source 0 = source := by
  unfold iter_messages
  rw [List.filter_eq_self]
  intro m hm
  simpa using hpos m hm

lemma limitReached_none (count : Nat) : limitReached none count = false := rfl

lemma scanLoop_none (chan : String) (skipAll : Bool) (limit : Option Nat) :
    ∀ (ms : List RawMessage), (∀ m ∈ ms, classify chan m = none) →
    ∀ (log : LogState) (qual : List MessageRecord),
      scanLoop chan skipAll limit ms log qual = (log, qual) := by
  intro ms
  induction ms with
  | nil => intro _ log qual; rfl
  | cons m rest ih =>
    intro hnone log qual
    have hm := hnone m (List.mem_cons_self m rest)
    have hstep : scanLoop chan skipAll limit (m :: rest) log qual
        = scanLoop chan skipAll limit rest log qual := by
      simp only [scanLoop, hm]
    rw [hstep]
    exact ih (fun m' hm' => hnone m' (List.mem_cons_of_mem m hm')) log qual

lemma scanLoop_chr (chan : String) (ms : List RawMessage) :
    ∀ (log : LogState) (qual : List MessageRecord),
      (∀ p ∈ log.messages, ∀ m ∈ ms, p.1 < m.id) →
      ms.Pairwise (fun a b => a.id < b.id) →
      (scanLoop chan false none ms log qual).1.messages
          = log.messages ++ classifiedPairs chan ms
        ∧ (scanLoop chan false none ms log qual).1.lastScanTime = log.lastScanTime
        ∧ (scanLoop chan false none ms log qual).1.lastSuccessfulId = log.lastSuccessfulId
        ∧ (scanLoop chan false none ms log qual).2
          = qual ++ (classifiedRecs chan ms).filter (fun r => r.hasReactions) := by
  induction ms with
  | nil =>
    intro log qual hlt hs
    simp [scanLoop, classifiedPairs, classifiedRecs]
  | cons m rest ih =>
    intro log qual hlt hs
    cases hc : classify chan m with
    | none =>
      have hstep : scanLoop chan false none (m :: rest) log qual
          = scanLoop chan false none rest log qual := by
        simp only [scanLoop, hc]
      rw [hstep]
      obtain ⟨hm1, hm2, hm3, hm4⟩ := ih log qual
        (fun p hp m' hm' => hlt p hp m' (List.mem_cons_of_mem m hm'))
        (List.pairwise_cons.mp hs).2
      have hcp : classifiedPairs chan (m :: rest) = classifiedPairs chan rest := by
        simp [classifiedPairs, hc]
      have hcr : classifiedRecs chan (m :: rest) = classifiedRecs chan rest := by
        simp [classifiedRecs, hc]
      exact ⟨by rw [hm1, hcp], hm2, hm3, by rw [hm4, hcr]⟩
    | some r =>
      obtain ⟨hid, hdl⟩ := classify_id chan m r hc
      have hfresh : ∀ p ∈ log.messages, p.1 ≠ r.id := by
        intro p hp
        have h1 := hlt p hp m (List.mem_cons_self m rest)
        rw [hid]
        omega
      have hstep : scanLoop chan false none (m :: rest) log qual
          = scanLoop chan false none rest
              { log with messages := log.messages ++ [(r.id, r)] }
              (if r.hasReactions then qual ++ [r] else qual) := by
        simp only [scanLoop, hc]
        rw [insertMsg_fresh log.messages r hfresh]
        simp [limitReached]
      rw [hstep]
      have hlt' : ∀ p ∈ ({ log with messages := log.messages ++ [(r.id, r)] } :
          LogState).messages, ∀ m' ∈ rest, p.1 < m'.id := by
        intro p hp m' hm'
        rcases List.mem_append.mp hp with h1 | h2
        · exact hlt p h1 m' (List.mem_cons_of_mem m hm')
        · have hpr : p = (r.id, r) := by simpa using h2
          have hmm : m.id < m'.id := (List.pairwise_cons.mp hs).1 m' hm'
          rw [hpr]
          show r.id < m'.id
          omega
      obtain ⟨hm1, hm2, hm3, hm4⟩ := ih
        { log with messages := log.messages ++ [(r.id, r)] }
        (if r.hasReactions then qual ++ [r] else qual)
        hlt' (List.pairwise_cons.mp hs).2
      have hcp : classifiedPairs chan (m :: rest)
          = (r.id, r) :: classifiedPairs chan rest := by
        simp [classifiedPairs, hc]
      have hcr : classifiedRecs chan (m :: rest) = r :: classifiedRecs chan rest := by
        simp [classifiedRecs, hc]
      refine ⟨?_, by rw [hm2], by rw [hm3], ?_⟩
      · rw [hm1, hcp]
        show (log.messages ++ [(r.id, r)]) ++ classifiedPairs chan rest
            = log.messages ++ ((r.id, r) :: classifiedPairs chan rest)
        rw [List.append_assoc, List.singleton_append]
      · rw [hm4, hcr]
        by_cases hr : r.hasReactions = true
        · rw [if_pos hr, List.filter_cons_of_pos (by simpa using hr)]
          rw [List.append_assoc, List.singleton_append]
        · rw [if_neg hr, List.filter_cons_of_neg (by simpa using hr)]

/-! ## Download loop under an all-success oracle (C4) -/

lemma retry_first_ok (outcomes : Nat → AttemptOutcome) (h0 : outcomes 0 = AttemptOutcome.ok)
    (maxR : Nat) (hm : 0 < maxR) :
    download_media_with_retry outcomes maxR 0 [] = (RetryResult.success, []) := by
  rw [download_media_with_retry, dif_pos hm, h0]

lemma processOne_ok_eq (maxR : Nat) (hm : 0 < maxR) (st : DownloadState) (r : MessageRecord)
    (hnew : targetPath r ∉ st.fs) :
    processOne false maxR (fun _ _ => AttemptOutcome.ok) st r
      = { fs := targetPath r :: st.fs,
          log := { st.log with messages := insertMsg st.log.messages r },
          succeeded := st.succeeded ++ [r],
          failed := st.failed,
          fetches := st.fetches + 1,
          sleeps := st.sleeps ++ [] } := by
  have hro : download_media_with_retry ((fun _ _ => AttemptOutcome.ok) st.fetches) maxR 0 []
      = (RetryResult.success, []) := retry_first_ok _ rfl maxR hm
  unfold processOne
  rw [if_neg (fun hcon => hnew hcon.1)]
  rw [hro]
  rfl

lemma processOne_skip_eq (force : Bool) (maxR : Nat) (oracle : Nat → Nat → AttemptOutcome)
    (st : DownloadState) (r : MessageRecord)
    (hex : targetPath r ∈ st.fs) (hf : force = false) :
    processOne force maxR oracle st r = { st with succeeded := st.succeeded ++ [r] } := by
  unfold processOne
  rw [if_pos ⟨hex, hf⟩]

lemma downloadLoop_cons (force : Bool) (maxR : Nat) (oracle : Nat → Nat → AttemptOutcome)
    (r : MessageRecord) (rest : List MessageRecord) (st : DownloadState) :
    downloadLoop force maxR oracle (r :: rest) st
      = downloadLoop force maxR oracle rest (processOne force maxR oracle st r) := by
  simp only [downloadLoop]

lemma downloadLoop_ok (maxR : Nat) (hm : 0 < maxR) :
    ∀ (records : List MessageRecord) (st : DownloadState),
      (∀ x ∈ st.fs, x ∈ (downloadLoop false maxR (fun _ _ => AttemptOutcome.ok) records st).fs)
      ∧ (∀ r ∈ records,
          targetPath r ∈ (downloadLoop false maxR (fun _ _ => AttemptOutcome.ok) records st).fs) := by
  intro records
  induction records with
  | nil =>
    intro st
    refine ⟨fun x hx => ?_, fun r hr => absurd hr (List.not_mem_nil r)⟩
    simpa [downloadLoop] using hx
  | cons r rest ih =>
    intro st
    rw [downloadLoop_cons]
    obtain ⟨hmono, hall⟩ := ih (processOne false maxR (fun _ _ => AttemptOutcome.ok) st r)
    by_cases hex : targetPath r ∈ st.fs
    · have hfs : (processOne false maxR (fun _ _ => AttemptOutcome.ok) st r).fs = st.fs := by
        rw [processOne_skip_eq false maxR _ st r hex rfl]
      refine ⟨fun x hx => hmono x (by rw [hfs]; exact hx), fun q hq => ?_⟩
      rcases List.mem_cons.mp hq with h1 | h2
      · subst h1
        exact hmono _ (by rw [hfs]; exact hex)
      · exact hall q h2
    · have hfs : (processOne false maxR (fun _ _ => AttemptOutcome.ok) st r).fs
          = targetPath r :: st.fs := by
        rw [processOne_ok_eq maxR hm st r hex]
      refine ⟨fun x hx => hmono x (by rw [hfs]; exact List.mem_cons_of_mem _ hx),
        fun q hq => ?_⟩
      rcases List.mem_cons.mp hq with h1 | h2
      · subst h1
        exact hmono _ (by rw [hfs]; exact List.mem_cons_self _ _)
      · exact hall q h2

lemma processOne_log (force : Bool) (maxR : Nat) (oracle : Nat → Nat → AttemptOutcome)
    (st : DownloadState) (r : MessageRecord)
    (hnd : NodupKeys st.log.messages) (hmem : (r.id, r) ∈ st.log.messages) :
    (processOne force maxR oracle st r).log = st.log := by
  unfold processOne
  dsimp only
  split
  · rfl
  · split
    · show ({ st.log with messages := insertMsg st.log.messages r } : LogState) = st.log
      rw [insertMsg_mem st.log.messages r hnd hmem]
    · rfl

lemma downloadLoop_log (force : Bool) (maxR : Nat) (oracle : Nat → Nat → AttemptOutcome) :
    ∀ (records : List MessageRecord) (st : DownloadState),
      NodupKeys st.log.messages →
      (∀ r ∈ records, (r.id, r) ∈ st.log.messages) →
      (downloadLoop force maxR oracle records st).log = st.log := by
  intro records
  induction records with
  | nil => intro st _ _; simp [downloadLoop]
  | cons r rest ih =>
    intro st hnd hall
    have hpl := processOne_log force maxR oracle st r hnd (hall r (List.mem_cons_self r rest))
    rw [downloadLoop_cons]
    rw [ih (processOne force maxR oracle st r) (by rw [hpl]; exact hnd)
      (fun q hq => by rw [hpl]; exact hall q (List.mem_cons_of_mem r hq))]
    exact hpl

lemma save_final_eq (file : Option LogState) (s : LogState) :
    save_checkpoint file s false true = (some s, true) := by
  unfold save_checkpoint shouldCheckpoint
  simp

/-! ## The two-run idempotence argument (C4) -/

lemma run1_spec (chan : String) (source : List RawMessage) (fs₀ : List String)
    (maxR now : Nat) (hs : source.Pairwise (fun a b => a.id < b.id))
    (hpos : ∀ m ∈ source, 0 < m.id) (hm : 0 < maxR) :
    ∃ L : LogState,
      (download_reacted_media chan source none fs₀ false false none none maxR
          (fun _ _ => AttemptOutcome.ok) now).persisted = some L
      ∧ L.messages = classifiedPairs chan source
      ∧ ∀ r ∈ (classifiedRecs chan source).filter (fun r => r.hasReactions),
          targetPath r ∈ (download_reacted_media chan source none fs₀ false false none none
            maxR (fun _ _ => AttemptOutcome.ok) now).fs := by
  have hiter : iter_messages source (scanLowerBound (load_log_file none) none) = source :=
    iter_messages_all source hpos
  have hql : qualifiedFromLog (load_log_file none) false false = [] := rfl
  obtain ⟨hc1, hc2, hc3, hc4⟩ :=
    scanLoop_chr chan source (load_log_file none) []
      (by intro p hp m' hm'; simp [load_log_file] at hp) hs
  simp only [download_reacted_media, get_qualified_messages, hiter, hql]
  have hmsgs : ({ (scanLoop chan false none source (load_log_file none) []).1 with
      lastScanTime := some now } : LogState).messages = classifiedPairs chan source := by
    show (scanLoop chan false none source (load_log_file none) []).1.messages
        = classifiedPairs chan source
    rw [hc1]
    show ([] : List (Nat × MessageRecord)) ++ _ = _
    rw [List.nil_append]
  have hqual : (scanLoop chan false none source (load_log_file none) []).2
      = (classifiedRecs chan source).filter (fun r => r.hasReactions) := by
    rw [hc4]
    rw [List.nil_append]
  have hnd : NodupKeys ({ (scanLoop chan false none source (load_log_file none) []).1 with
      lastScanTime := some now } : LogState).messages := by
    rw [hmsgs]
    exact cp_nodupKeys chan source hs
  have hqmem : ∀ r ∈ (scanLoop chan false none source (load_log_file none) []).2,
      (r.id, r) ∈ ({ (scanLoop chan false none source (load_log_file none) []).1 with
        lastScanTime := some now } : LogState).messages := by
    intro r hr
    rw [hmsgs]
    rw [hqual] at hr
    exact mem_classifiedRecs_pairs chan source r (List.mem_of_mem_filter hr)
  have hlogpres := downloadLoop_log false maxR (fun _ _ => AttemptOutcome.ok)
    (scanLoop chan false none source (load_log_file none) []).2
    (initState fs₀ { (scanLoop chan false none source (load_log_file none) []).1 with
      lastScanTime := some now })
    hnd hqmem
  refine ⟨(downloadLoop false maxR (fun _ _ => AttemptOutcome.ok)
      (scanLoop chan false none source (load_log_file none) []).2
      (initState fs₀ { (scanLoop chan false none source (load_log_file none) []).1 with
        lastScanTime := some now })).log, ?_, ?_, ?_⟩
  · rw [save_final_eq]
  · rw [hlogpres]
    exact hmsgs
  · intro r hr
    have hall := (downloadLoop_ok maxR hm
      (scanLoop chan false none source (load_log_file none) []).2
      (initState fs₀ { (scanLoop chan false none source (load_log_file none) []).1 with
        lastScanTime := some now })).2
    apply hall
    rw [hqual]
    exact hr

lemma run2_zero (chan : String) (source : List RawMessage) (L : LogState)
    (fs : List String) (maxR now : Nat) (oracle : Nat → Nat → AttemptOutcome)
    (hmsg : L.messages = classifiedPairs chan source)
    (hpaths : ∀ r ∈ (classifiedRecs chan source).filter (fun r => r.hasReactions),
      targetPath r ∈ fs) :
    (download_reacted_media chan source (some L) fs false false none none maxR
        oracle now).mediaFetches = 0 := by
  have hnone : ∀ m ∈ iter_messages source (scanLowerBound L none),
      classify chan m = none := by
    intro m hm
    cases hcm : classify chan m with
    | none => rfl
    | some r =>
      exfalso
      have hmemp : (r.id, r) ∈ classifiedPairs chan source :=
        List.mem_filterMap.mpr ⟨m, List.mem_of_mem_filter hm, by rw [hcm]; rfl⟩
      have hle : r.id ≤ latest_msg_id L.messages := by
        rw [hmsg]
        exact latest_ge _ _ hmemp
      have hlt : latest_msg_id L.messages < m.id := by
        have h2 := (List.mem_filter.mp hm).2
        simpa [scanLowerBound] using h2
      have hid := (classify_id chan m r hcm).1
      omega
  have hscan := scanLoop_none chan false none _ hnone L (qualifiedFromLog L false false)
  have hq2 : ∀ r ∈ qualifiedFromLog L false false, targetPath r ∈ fs := by
    intro r hr
    unfold qualifiedFromLog at hr
    obtain ⟨p, hp, hpr⟩ := List.mem_map.mp hr
    have hp1 : p ∈ L.messages := List.mem_of_mem_filter (List.mem_of_mem_filter hp)
    have hpR : p.2.hasReactions = true := by
      have h2 := (List.mem_filter.mp hp).2
      simpa using h2
    rw [hmsg] at hp1
    obtain ⟨hcr, _, _⟩ := classifiedPairs_elim chan source p hp1
    apply hpaths
    rw [← hpr]
    exact List.mem_filter.mpr ⟨hcr, by simpa using hpR⟩
  simp only [download_reacted_media, get_qualified_messages, load_log_file]
  rw [hscan]
  have hall := downloadLoop_all_present maxR oracle (qualifiedFromLog L false false)
    (initState fs { (L, qualifiedFromLog L false false).1 with lastScanTime := some now })
    (by intro r hr; exact hq2 r hr)
  rw [hall]
  rfl

/-! ## C4: second identical run fetches nothing -/

/-- C4: after a run from a fresh log in which every media fetch
succeeds, running the pipeline again with the same source, the persisted
log and the resulting filesystem - force-redownload unset - issues zero
media-fetch operations: every qualified record's deterministic target
path already exists on disk.  (The scan and the per-batch metadata
retrieval still contact the source; `mediaFetches` counts
`download_media_with_retry` invocations, the `fetchMedia` capability of
the spec.) -/
theorem c4_idempotent_second_run (chan : String) (source : List RawMessage)
    (fs₀ : List String) (maxR : Nat) (oracle₂ : Nat → Nat → AttemptOutcome)
    (now₁ now₂ : Nat)
    (hs : source.Pairwise (fun a b => a.id < b.id))
    (hpos : ∀ m ∈ source, 0 < m.id)
    (hm : 0 < maxR) :
    (download_reacted_media chan source
        (download_reacted_media chan source none fs₀ false false none none maxR
          (fun _ _ => AttemptOutcome.ok) now₁).persisted
        (download_reacted_media chan source none fs₀ false false none none maxR
          (fun _ _ => AttemptOutcome.ok) now₁).fs
        false false none none maxR oracle₂ now₂).mediaFetches = 0 := by
  obtain ⟨L, hpers, hmsg, hpaths⟩ := run1_spec chan source fs₀ maxR now₁ hs hpos hm
  rw [hpers]
  exact run2_zero chan source L _ maxR now₂ oracle₂ hmsg hpaths

/-- Witness for C4: one reacted photo message, an all-success first run,
then a second run whose oracle would fail every fetch - it still issues
zero media fetches. -/
theorem c4_witness :
    (download_reacted_media "chan" [wMsgC4]
        (download_reacted_media "chan" [wMsgC4] none [] false false none none 3
          (fun _ _ => AttemptOutcome.ok) 5).persisted
        (download_reacted_media "chan" [wMsgC4] none [] false false none none 3
          (fun _ _ => AttemptOutcome.ok) 5).fs
        false false none none 3 (fun _ _ => AttemptOutcome.err "boom") 6).mediaFetches = 0 :=
  c4_idempotent_second_run "chan" [wMsgC4] [] 3 (fun _ _ => AttemptOutcome.err "boom") 5 6
    (by simp) (by decide) (by decide)

/-- Witness for C1: scan-insert then verify-match then a forced
checkpoint; the persisted state satisfies the invariant. -/
theorem c1_witness :
    ∃ p, (save_checkpoint none wLog2 true false).1 = some p
      ∧ p.lastSuccessfulId = maxDownloadedId p.messages :=
  c1_checkpoint_invariant wLog2
    (Reachable.verified wLog1 wFs1 wAtt1
      (Reachable.scanInsert (load_log_file none) wRec1 Reachable.fresh
        (by simp [load_log_file]) rfl)
      ⟨wRec1, by decide⟩)
    none true false rfl
